import Mathlib

/-!
Shallow embedding of `packages/@aws-cdk/core/lib/asset-staging.ts`.

The staging engine is single-threaded and synchronous; every effectful
method is embedded as an explicit state-passing function over a flat
file-system model `Fs` (an association list from absolute path strings to
entries), returning the new state together with an `Except String`
result (a thrown JavaScript `Error` becomes `.error msg`).

External collaborators that the source file only consumes (the content
fingerprinting algorithm `FileSystem.fingerprint`, the sha256 digest from
`crypto`, and the bundling executor `options.local.tryBundle` and
`options.image.run`) are passed in as explicit function parameters, so
the theorems quantify over them.

JavaScript truthiness of optional strings (`undefined` and the empty
string are both falsy) is modelled by `truthyStr`.
-/

/-- JavaScript truthiness of an optional string: `undefined` and `""` are falsy. -/
def truthyStr : Option String → Bool
  | none => false
  | some s => !(s == "")

/-- The `AssetHashType` enum from `assets.ts` (values are the enum string values). -/
inductive AssetHashType where
  | source
  | custom
  | bundle
  | output
deriving DecidableEq, Repr

/-- String value of the enum member, as interpolated into error messages. -/
def AssetHashType.toStr : AssetHashType → String
  | .source => "source"
  | .custom => "custom"
  | .bundle => "bundle"
  | .output => "output"

/-- Rendering of `assetHashType` in a template literal: `undefined` prints as the
word undefined, an enum member prints its string value. -/
def optHashTypeStr : Option AssetHashType → String
  | none => "undefined"
  | some t => t.toStr

/-- A previously staged asset (`interface StagedAsset`). -/
structure StagedAsset where
  stagedPath : String
  assetHash : String
deriving DecidableEq, Repr

/-- Fingerprint options are only threaded through to the external
fingerprint and copy collaborators; modelled opaquely. -/
abbrev FingerprintOptions := String

/- ### File-system model -/

/-- An entry on disk: a regular file with contents, a directory, or any
other kind of entry (socket, fifo, ...) for the `Unknown file type` branch. -/
inductive FsEntry where
  | file : String → FsEntry
  | dir : FsEntry
  | other : FsEntry
deriving DecidableEq, Repr

/-- Flat file-system state: an association list from absolute paths to
entries; the first binding of a path wins. -/
abbrev Fs := List (String × FsEntry)

/-- Path `p` is strictly below directory `d` (string-prefix test on `d ++ "/"`). -/
def isUnder (d p : String) : Bool := List.isPrefixOf (d ++ "/").data p.data

/-- Look up a path. -/
def Fs.lookupP : Fs → String → Option FsEntry
  | [], _ => none
  | (q, e) :: t, p => if q = p then some e else Fs.lookupP t p

/-- `fs.existsSync p`. -/
def Fs.existsP (fs : Fs) (p : String) : Bool := (fs.lookupP p).isSome

/-- Create or overwrite a single entry (used for `ensureDirSync`, `copyFileSync`, `mkdirSync`). -/
def Fs.setEntry (fs : Fs) (p : String) (e : FsEntry) : Fs :=
  (p, e) :: fs.filter (fun q => !(q.1 == p))

/-- `fs.removeSync p`: recursively delete the entry and everything below it. -/
def Fs.removeAll (fs : Fs) (p : String) : Fs :=
  fs.filter (fun q => !(q.1 == p) && !(isUnder p q.1))

/-- `fs.renameSync src tgt`: relocate the entry and its whole subtree, rewriting
the path prefix of every entry below `src`. -/
def Fs.renameP (fs : Fs) (src tgt : String) : Fs :=
  fs.map (fun q =>
    if q.1 = src then (tgt, q.2)
    else if isUnder src q.1 then (String.mk (tgt.data ++ q.1.data.drop src.length), q.2)
    else q)

/-- `FileSystem.isEmpty dir`: the directory has no entry strictly below it. -/
def Fs.isEmptyDir (fs : Fs) (d : String) : Bool :=
  fs.all (fun q => !(isUnder d q.1))

/- ### The Cache class (the staging memo) -/

/-- The `Cache` class: a `Map` from cache-key strings to staged assets.
The source instantiates it once, statically, at `Cache<StagedAsset>`. -/
structure Cache where
  cache : List (String × StagedAsset)
deriving DecidableEq, Repr

/-- `Map.get`: first binding of the key, `undefined` when absent. -/
def Cache.lookup (c : Cache) (k : String) : Option StagedAsset :=
  (c.cache.find? (fun q => q.1 == k)).map (·.2)

/-- `Map.set`. -/
def Cache.set (c : Cache) (k : String) (v : StagedAsset) : Cache :=
  ⟨(k, v) :: c.cache.filter (fun q => !(q.1 == k))⟩

/-- `Cache.clear`. -/
def Cache.clear (_ : Cache) : Cache := ⟨[]⟩

/-- `Cache.obtain`: return the stored value if present (a `StagedAsset` is a
JavaScript object, hence always truthy), otherwise run `calcFn` and store the
result. A throwing `calcFn` is modelled by `.error`; the exception propagates
before `Map.set` runs, so no new cache state is produced on that path. The
second component instruments the number of `calcFn` invocations performed. -/
def Cache.obtain (c : Cache) (cacheKey : String) (calcFn : Unit → Except String StagedAsset) :
    Except String (StagedAsset × Cache) × Nat :=
  match c.lookup cacheKey with
  | some old => (.ok (old, c), 0)
  | none =>
    match calcFn () with
    | .ok noo => (.ok (noo, c.set cacheKey noo), 1)
    | .error e => (.error e, 1)

/- ### Hash type resolution -/

/-- `determineHashType` (lines 450-463): resolve the hash type from the optional
construct props; throws on the two invalid combinations. -/
def determineHashType (assetHashType : Option AssetHashType)
    (customSourceFingerprint : Option String) : Except String AssetHashType :=
  let hashType :=
    if truthyStr customSourceFingerprint then assetHashType.getD .custom
    else assetHashType.getD .source
  if truthyStr customSourceFingerprint && !(hashType == .custom) then
    .error ("Cannot specify `" ++ optHashTypeStr assetHashType ++
      "` for `assetHashType` when `assetHash` is specified. Use `CUSTOM` or leave `undefined`.")
  else if hashType == .custom && !(truthyStr customSourceFingerprint) then
    .error "`assetHash` must be specified when `assetHashType` is set to `AssetHashType.CUSTOM`."
  else .ok hashType

/- ### Paths and file names -/

/-- Simplified model of `path.resolve(base, p)`: `base` is assumed absolute and
`p` already normalized, so resolution is plain joining. -/
def pathResolve (base p : String) : String :=
  if List.isPrefixOf "/".data p.data then p else base ++ "/" ++ p

/-- `renderAssetFilename`. -/
def renderAssetFilename (assetHash : String) (extension : String := "") : String :=
  "asset." ++ assetHash ++ extension

/-- Simplified model of `path.extname`: the suffix of the base name from its
last dot, empty when there is no dot or the only dot starts the base name. -/
def extname (p : String) : String :=
  let base := (p.splitOn "/").getLastD ""
  match base.splitOn "." with
  | [] => ""
  | [_] => ""
  | first :: rest =>
    if first == "" && rest.length == 1 then "" else "." ++ rest.getLastD ""

/- ### The AssetStaging instance state and collaborators -/

/-- The fields of an `AssetStaging` instance that the staging methods read.
`nodePath` is `this.node.path`, used in diagnostics. -/
structure AssetStagingCtx where
  sourcePath : String
  outdir : String
  hashType : AssetHashType
  customSourceFingerprint : Option String
  fingerprintOptions : FingerprintOptions
  cacheKey : String
  nodePath : String
deriving Repr

/-- External pure collaborators: `FileSystem.fingerprint` and the sha256 digest
(`crypto.createHash('sha256')` with a list of `update` chunks). -/
structure Collab where
  fp : String → FingerprintOptions → String
  sha : List String → String

/-- Bundling options. Execution details (`image`, `command`, `local`, ...) live
behind the executor collaborator; `json` stands for `JSON.stringify` of the
whole options object as folded into CUSTOM/SOURCE hashes, and `user` is the
optional explicit execution identity. -/
structure BundlingOptions where
  json : String
  user : Option String
deriving DecidableEq, Repr

/-- `AssetStaging.calculateHash` (lines 407-437). -/
def AssetStaging.calculateHash (c : Collab) (ctx : AssetStagingCtx)
    (hashType : AssetHashType) (bundling : Option BundlingOptions := none)
    (outputDir : Option String := none) : Except String String :=
  -- CUSTOM and bundled SOURCE are special-cased: seed is the user hash if
  -- provided (nullish coalescing, so even an empty string is used), else the
  -- source fingerprint; a present bundling config is folded into the digest.
  if hashType == .custom || (hashType == .source && bundling.isSome) then
    let seed :=
      match ctx.customSourceFingerprint with
      | some s => s
      | none => c.fp ctx.sourcePath ctx.fingerprintOptions
    match bundling with
    | some b => .ok (c.sha [seed, b.json])
    | none => .ok (c.sha [seed])
  else
    match hashType with
    | .source => .ok (c.fp ctx.sourcePath ctx.fingerprintOptions)
    | .bundle | .output =>
      if truthyStr outputDir then
        .ok (c.fp (outputDir.getD "") ctx.fingerprintOptions)
      else
        .error ("Cannot use `" ++ hashType.toStr ++ "` hash type when `bundling` is not specified.")
    -- The switch has no CUSTOM case; it would fall to the default branch,
    -- which is unreachable because the guard above catches CUSTOM.
    | .custom => .error "Unknown asset hash type."

/- ### Staging primitives -/

/-- Primitive file-system operations performed by `stageAsset`, recorded so the
theorems can state that the already-staged fast path copies nothing. -/
inductive FsOp where
  | remove : String → FsOp
  | rename : String → String → FsOp
  | copyFile : String → String → FsOp
  | mkdir : String → FsOp
  | copyDir : String → String → FsOp
deriving DecidableEq, Repr

/-- The placement style of `stageAsset`. -/
inductive StageStyle where
  | move
  | copy
deriving DecidableEq, Repr

/-- Recursive copy of the subtree below `src` to below `tgt`
(`FileSystem.copyDirectory`; include/exclude filters are owned by that external
collaborator and not modelled). -/
def Fs.copyTree (fs : Fs) (src tgt : String) : Fs :=
  (fs.filterMap (fun q =>
    if isUnder src q.1 then
      some (String.mk (tgt.data ++ q.1.data.drop src.length), q.2)
    else none)) ++ fs

/-- `AssetStaging.stageAsset` (lines 288-314): idempotent placement of
`sourcePath` at `targetPath` by moving or copying. -/
def AssetStaging.stageAsset (ctx : AssetStagingCtx) (fs : Fs)
    (sourcePath targetPath : String) (style : StageStyle) :
    Fs × Except String (List FsOp) :=
  -- Is the work already done?
  if fs.existsP targetPath then
    if style == .move && !(sourcePath == targetPath) then
      (fs.removeAll sourcePath, .ok [.remove sourcePath])
    else (fs, .ok [])
  else
    match style with
    | .move => (fs.renameP sourcePath targetPath, .ok [.rename sourcePath targetPath])
    | .copy =>
      -- fs.statSync throws when the source does not exist.
      match fs.lookupP sourcePath with
      | none => (fs, .error ("ENOENT: no such file or directory, stat " ++ sourcePath))
      | some (.file content) =>
        (fs.setEntry targetPath (.file content), .ok [.copyFile sourcePath targetPath])
      | some .dir =>
        ((fs.setEntry targetPath .dir).copyTree sourcePath targetPath,
          .ok [.mkdir targetPath, .copyDir sourcePath targetPath])
      | some .other => (fs, .error ("Unknown file type: " ++ sourcePath))

/-- `AssetStaging.determineBundleDir` (lines 323-331). -/
def AssetStaging.determineBundleDir (ctx : AssetStagingCtx) (outdir : String)
    (sourceHash : Option String) : String :=
  if truthyStr sourceHash then
    pathResolve outdir (renderAssetFilename (sourceHash.getD ""))
  else
    pathResolve outdir ("bundling-temp-" ++ ctx.cacheKey)

/-- The fixed mount point constant `AssetStaging.BUNDLING_OUTPUT_DIR`. -/
def AssetStaging.BUNDLING_OUTPUT_DIR : String := "/asset-output"

/-- The fixed mount point constant `AssetStaging.BUNDLING_INPUT_DIR`. -/
def AssetStaging.BUNDLING_INPUT_DIR : String := "/asset-input"

/-- Execution identity resolution inside `bundle` (lines 350-358): explicit
`options.user`, else `uid:gid` of the OS user, with a fixed fallback when the
platform reports uid -1 (Windows). -/
def AssetStaging.resolveUser (osUid osGid : Int) (optUser : Option String) : String :=
  match optUser with
  | some u => u
  | none =>
    if osUid != -1 then toString osUid ++ ":" ++ toString osGid
    else "1000:1000"

/-- Outcome of running the external bundler (`options.local.tryBundle` followed
by `options.image.run`) against a bundle directory: the file system it leaves
behind, the thrown error if any, and whether the local bundler handled the run. -/
structure BundleRun where
  fs : Fs
  err : Option String
  localBundling : Bool

/-- `AssetStaging.bundle` (lines 343-405). The executor collaborator `runB`
receives the state after the bundle directory is created and abstracts the
try-block (user/volume plumbing is passed to the external image and does not
touch the modelled file system). On a thrown error the partially populated
bundle directory is renamed aside to `<bundleDir>-error`; on success an empty
bundle directory is a fatal error. -/
def AssetStaging.bundle (runB : Fs → String → BundleRun) (ctx : AssetStagingCtx)
    (options : BundlingOptions) (fs : Fs) (bundleDir : String) :
    Fs × Except String Unit :=
  -- If the directory already exists, assume everything is in order.
  if fs.existsP bundleDir then (fs, .ok ())
  else
    -- ensureDirSync + chmod 0o777 (permission bits are not modelled).
    let fs1 := fs.setEntry bundleDir .dir
    let r := runB fs1 bundleDir
    match r.err with
    | some err =>
      -- Keep the bundle output for diagnosability, renamed out of the way.
      let bundleErrorDir := bundleDir ++ "-error"
      let fs2 := if r.fs.existsP bundleErrorDir then r.fs.removeAll bundleErrorDir else r.fs
      (fs2.renameP bundleDir bundleErrorDir,
        .error ("Failed to bundle asset " ++ ctx.nodePath ++
          ", bundle output is located at " ++ bundleErrorDir ++ ": " ++ err))
    | none =>
      if r.fs.isEmptyDir bundleDir then
        (r.fs, .error ("Bundling did not produce any output. Check that content is written to " ++
          (if r.localBundling then bundleDir else AssetStaging.BUNDLING_OUTPUT_DIR) ++ "."))
      else (r.fs, .ok ())

/-- `AssetStaging.stageByCopying` (lines 240-248). -/
def AssetStaging.stageByCopying (c : Collab) (ctx : AssetStagingCtx) (skip : Bool)
    (fs : Fs) : Fs × Except String (List FsOp × StagedAsset) :=
  match AssetStaging.calculateHash c ctx ctx.hashType with
  | .error e => (fs, .error e)
  | .ok assetHash =>
    let stagedPath :=
      if skip then ctx.sourcePath
      else pathResolve ctx.outdir (renderAssetFilename assetHash (extname ctx.sourcePath))
    match AssetStaging.stageAsset ctx fs ctx.sourcePath stagedPath .copy with
    | (fs2, .error e) => (fs2, .error e)
    | (fs2, .ok ops) => (fs2, .ok (ops, { stagedPath := stagedPath, assetHash := assetHash }))

/-- `AssetStaging.stageByBundling` (lines 255-279). -/
def AssetStaging.stageByBundling (c : Collab) (runB : Fs → String → BundleRun)
    (ctx : AssetStagingCtx) (bundling : BundlingOptions) (skip : Bool) (fs : Fs) :
    Fs × Except String (List FsOp × StagedAsset) :=
  if skip then
    -- We should have bundled, but did not, to save time. Still pretend to
    -- have a hash, but always base it on sources.
    match AssetStaging.calculateHash c ctx .source with
    | .error e => (fs, .error e)
    | .ok h => (fs, .ok ([], { stagedPath := ctx.sourcePath, assetHash := h }))
  else
    -- Try to calculate assetHash beforehand (if we can).
    let pre : Except String (Option String) :=
      if ctx.hashType == .source || ctx.hashType == .custom then
        (AssetStaging.calculateHash c ctx ctx.hashType (some bundling)).map some
      else .ok none
    match pre with
    | .error e => (fs, .error e)
    | .ok assetHash0 =>
      let bundleDir := AssetStaging.determineBundleDir ctx ctx.outdir assetHash0
      match AssetStaging.bundle runB ctx bundling fs bundleDir with
      | (fs1, .error e) => (fs1, .error e)
      | (fs1, .ok _) =>
        -- Calculate assetHash afterwards if we still must.
        let hashRes :=
          match assetHash0 with
          | some h => Except.ok h
          | none => AssetStaging.calculateHash c ctx ctx.hashType (some bundling) (some bundleDir)
        match hashRes with
        | .error e => (fs1, .error e)
        | .ok assetHash =>
          let stagedPath := pathResolve ctx.outdir (renderAssetFilename assetHash)
          match AssetStaging.stageAsset ctx fs1 bundleDir stagedPath .move with
          | (fs2, .error e) => (fs2, .error e)
          | (fs2, .ok ops) => (fs2, .ok (ops, { stagedPath := stagedPath, assetHash := assetHash }))

/- ### Canonicalization and the cache key (sortObject / calculateCacheKey) -/

/- A cycle-free JavaScript value as passed to `JSON.stringify`: scalars,
arrays, and plain objects (an ordered list of string-keyed fields). -/
mutual
inductive JsonValue where
  | str : String → JsonValue
  | num : Int → JsonValue
  | bool : Bool → JsonValue
  | null : JsonValue
  | arr : JsonList → JsonValue
  | obj : JsonKVs → JsonValue
deriving DecidableEq, Repr
inductive JsonList where
  | nil : JsonList
  | cons : JsonValue → JsonList → JsonList
deriving DecidableEq, Repr
inductive JsonKVs where
  | nil : JsonKVs
  | cons : String → JsonValue → JsonKVs → JsonKVs
deriving DecidableEq, Repr
end

/- `JSON.stringify` (string escaping is not modelled; the keys and strings in
staging props are plain). -/
mutual
def stringify : JsonValue → String
  | .str s => "\"" ++ s ++ "\""
  | .num n => toString n
  | .bool b => if b then "true" else "false"
  | .null => "null"
  | .arr xs => "[" ++ stringifyList xs ++ "]"
  | .obj kvs => "\x7b" ++ stringifyKVs kvs ++ "\x7d"
def stringifyList : JsonList → String
  | .nil => ""
  | .cons v .nil => stringify v
  | .cons v tl => stringify v ++ "," ++ stringifyList tl
def stringifyKVs : JsonKVs → String
  | .nil => ""
  | .cons k v .nil => "\"" ++ k ++ "\":" ++ stringify v
  | .cons k v tl => "\"" ++ k ++ "\":" ++ stringify v ++ "," ++ stringifyKVs tl
end

/-- Insert a field into a key-sorted field list (stable: an existing key that
compares equal keeps its earlier position change set aside by `≤`). -/
def insertKV (k : String) (v : JsonValue) : JsonKVs → JsonKVs
  | .nil => .cons k v .nil
  | .cons k2 v2 tl =>
    if k ≤ k2 then .cons k v (.cons k2 v2 tl)
    else .cons k2 v2 (insertKV k v tl)

/-- Sort the fields of one object level by key (`Object.keys(object).sort()`),
as a stable insertion sort under the lexicographic string order. -/
def sortKVs : JsonKVs → JsonKVs
  | .nil => .nil
  | .cons k v tl => insertKV k v (sortKVs tl)

/- `sortObject` (lines 477-486): recursively rebuild every object with sorted
keys; anything that is not a plain object — scalars and, notably, arrays —
is returned unchanged, so nothing below an array is ever sorted. The source
sorts the keys first and then recurses into the values; since the sort
compares keys only, it is rendered here as recursing first and then sorting,
which produces the same field list. -/
mutual
def sortObject : JsonValue → JsonValue
  | .obj kvs => .obj (sortKVs (sortObjectKVs kvs))
  | v => v
def sortObjectKVs : JsonKVs → JsonKVs
  | .nil => .nil
  | .cons k v tl => .cons k (sortObject v) (sortObjectKVs tl)
end

/-- `calculateCacheKey` (lines 468-472): digest of the canonicalized,
serialized props; the sha256 collaborator is passed in. -/
def calculateCacheKey (sha : List String → String) (props : JsonValue) : String :=
  sha [stringify (sortObject props)]

/-- Literal permutation of object field lists (the shape of `List.Perm`,
specialized to `JsonKVs`). -/
inductive PermKV : JsonKVs → JsonKVs → Prop where
  | nil : PermKV .nil .nil
  | cons (k : String) (v : JsonValue) :
      PermKV t t2 → PermKV (.cons k v t) (.cons k v t2)
  | swap (k : String) (v : JsonValue) (k2 : String) (v2 : JsonValue) (t : JsonKVs) :
      PermKV (.cons k v (.cons k2 v2 t)) (.cons k2 v2 (.cons k v t))
  | trans : PermKV a b → PermKV b c → PermKV a c

/- Structural equality up to reordering of object keys at any depth that is
not below an array: two objects are related when, after relating their values
recursively in place, one field list is a permutation of the other; arrays
must be literally equal (the code never reorders below them); scalars must be
equal. This is the amended reading of the canonicalization contract. -/
mutual
def jequiv : JsonValue → JsonValue → Prop
  | .obj l, .obj l2 => ∃ m, pointwiseKV l m ∧ PermKV m l2
  | v, w => v = w
def pointwiseKV : JsonKVs → JsonKVs → Prop
  | .nil, .nil => True
  | .cons k v t, .cons k2 v2 t2 => k = k2 ∧ jequiv v v2 ∧ pointwiseKV t t2
  | _, _ => False
end

/- Structural equality up to reordering of object keys at any depth,
including below arrays, with array element order preserved: the relation the
claim about the Canonicalizer quantifies over. -/
mutual
def jequivD : JsonValue → JsonValue → Prop
  | .obj l, .obj l2 => ∃ m, pointwiseKVD l m ∧ PermKV m l2
  | .arr xs, .arr ys => pointwiseLD xs ys
  | v, w => v = w
def pointwiseLD : JsonList → JsonList → Prop
  | .nil, .nil => True
  | .cons v t, .cons v2 t2 => jequivD v v2 ∧ pointwiseLD t t2
  | _, _ => False
def pointwiseKVD : JsonKVs → JsonKVs → Prop
  | .nil, .nil => True
  | .cons k v t, .cons k2 v2 t2 => k = k2 ∧ jequivD v v2 ∧ pointwiseKVD t t2
  | _, _ => False
end

/-- The keys of one object level. -/
def keysOf : JsonKVs → List String
  | .nil => []
  | .cons k _ tl => k :: keysOf tl

/- Well-formedness of a JavaScript object graph: at every object level not
below an array the keys are pairwise distinct (true of every actual
JavaScript object). Below arrays no constraint is needed, since nothing
there is ever reordered. -/
mutual
def wfValue : JsonValue → Prop
  | .obj kvs => (keysOf kvs).Nodup ∧ wfKVs kvs
  | _ => True
def wfKVs : JsonKVs → Prop
  | .nil => True
  | .cons _ v tl => wfValue v ∧ wfKVs tl
end

/- ### Claim C1: the staging memo -/

/-- C1: for every cache key and compute function, `Cache.obtain` returns the
stored value without invoking `calcFn` when the key is present; when absent it
invokes `calcFn` exactly once and, on success, stores the result under the key
and returns it; when `calcFn` throws, the error propagates, the mapping is
unchanged (the caller still holds `c`, in which the key is absent), and a
later `obtain` on the same cache invokes its compute function again. -/
theorem Cache.obtain_spec (c : Cache) (key : String)
    (f g : Unit → Except String StagedAsset) :
    (∀ v, c.lookup key = some v → c.obtain key f = (.ok (v, c), 0))
    ∧ (c.lookup key = none →
        (c.obtain key f).2 = 1
        ∧ (∀ v, f () = .ok v →
            c.obtain key f = (.ok (v, c.set key v), 1)
            ∧ (c.set key v).lookup key = some v)
        ∧ (∀ e, f () = .error e →
            (c.obtain key f).1 = .error e ∧ (c.obtain key g).2 = 1)) := by
  refine ⟨fun v hv => by simp [Cache.obtain, hv], fun h => ⟨?_, ?_, ?_⟩⟩
  · cases hf : f () <;> simp [Cache.obtain, h, hf]
  · intro v hv
    refine ⟨by simp [Cache.obtain, h, hv], ?_⟩
    simp [Cache.set, Cache.lookup]
  · intro e he
    cases hg : g () <;> simp [Cache.obtain, h, he, hg]

/-- Witness for C1 at a concrete cache, key and compute function. -/
theorem Cache.obtain_spec_witness :
    (Cache.mk []).obtain "k" (fun _ => .ok ⟨"/out/asset.h1", "h1"⟩)
      = (.ok (⟨"/out/asset.h1", "h1"⟩, (Cache.mk []).set "k" ⟨"/out/asset.h1", "h1"⟩), 1)
    ∧ ((Cache.mk []).set "k" ⟨"/out/asset.h1", "h1"⟩).lookup "k" = some ⟨"/out/asset.h1", "h1"⟩ := by
  have h := Cache.obtain_spec (Cache.mk []) "k"
    (fun _ => .ok ⟨"/out/asset.h1", "h1"⟩) (fun _ => .ok ⟨"/out/asset.h1", "h1"⟩)
  exact (h.2 (by decide)).2.1 ⟨"/out/asset.h1", "h1"⟩ rfl

/- ### Claim C3: hash-strategy resolution -/

/-- C3: `determineHashType` fails exactly when a (truthy, i.e. non-empty)
custom seed is supplied together with an explicit strategy other than CUSTOM,
or when CUSTOM is explicitly requested without such a seed; with no explicit
strategy it resolves to CUSTOM when a seed was supplied and SOURCE otherwise.
(Supplying the empty string as seed counts as not supplying one: JavaScript
truthiness.) -/
theorem determineHashType_spec (assetHashType : Option AssetHashType) (seed : Option String) :
    ((∃ e, determineHashType assetHashType seed = .error e) ↔
      ((truthyStr seed = true ∧ ∃ t, assetHashType = some t ∧ t ≠ .custom)
        ∨ (assetHashType = some .custom ∧ truthyStr seed = false)))
    ∧ determineHashType none seed = .ok (if truthyStr seed then .custom else .source) := by
  constructor
  · cases assetHashType with
    | none => cases hs : truthyStr seed <;> simp [determineHashType, hs]
    | some t => cases t <;> cases hs : truthyStr seed <;> simp [determineHashType, hs]
  · cases hs : truthyStr seed <;> simp [determineHashType, hs]

/- ### Claim C4: calculateHash for BUNDLE / OUTPUT -/

/-- C4: with hash strategy BUNDLE or OUTPUT, `calculateHash` fails (with the
configuration error naming the strategy) when no output directory is
available, and otherwise returns the fingerprint of that directory under the
fingerprint options of the request. -/
theorem AssetStaging.calculateHash_bundle_output (c : Collab) (ctx : AssetStagingCtx)
    (hashType : AssetHashType) (bundling : Option BundlingOptions) (outputDir : Option String)
    (h : hashType = .bundle ∨ hashType = .output) :
    (truthyStr outputDir = false →
      AssetStaging.calculateHash c ctx hashType bundling outputDir
        = .error ("Cannot use `" ++ hashType.toStr ++ "` hash type when `bundling` is not specified."))
    ∧ (∀ d, d ≠ "" → outputDir = some d →
      AssetStaging.calculateHash c ctx hashType bundling outputDir
        = .ok (c.fp d ctx.fingerprintOptions)) := by
  have hd : ∀ d : String, d ≠ "" → truthyStr (some d) = true := by
    intro d hne; simp [truthyStr, hne]
  rcases h with h | h <;> subst h <;>
    exact ⟨fun ho => by simp [AssetStaging.calculateHash, ho],
      fun d hne ho => by subst ho; simp [AssetStaging.calculateHash, hd d hne]⟩

/-- Witness for C4: both cases at concrete inputs. -/
theorem AssetStaging.calculateHash_bundle_output_witness :
    AssetStaging.calculateHash ⟨fun p o => "fp(" ++ p ++ ";" ++ o ++ ")", fun l => String.intercalate "|" l⟩
        ⟨"/src/app", "/out", .bundle, none, "opts", "CK", "MyAsset"⟩ .bundle none none
      = .error "Cannot use `bundle` hash type when `bundling` is not specified."
    ∧ AssetStaging.calculateHash ⟨fun p o => "fp(" ++ p ++ ";" ++ o ++ ")", fun l => String.intercalate "|" l⟩
        ⟨"/src/app", "/out", .bundle, none, "opts", "CK", "MyAsset"⟩ .bundle none (some "/out/bdir")
      = .ok "fp(/out/bdir;opts)" := by
  have h := AssetStaging.calculateHash_bundle_output
    ⟨fun p o => "fp(" ++ p ++ ";" ++ o ++ ")", fun l => String.intercalate "|" l⟩
    ⟨"/src/app", "/out", .bundle, none, "opts", "CK", "MyAsset"⟩ .bundle none
  exact ⟨(h none (Or.inl rfl)).1 rfl, (h (some "/out/bdir") (Or.inl rfl)).2 "/out/bdir" (by decide) rfl⟩

/-- Decidable equality for results, for closed-statement evaluation. -/
instance {e a : Type} [DecidableEq e] [DecidableEq a] : DecidableEq (Except e a) := fun x y =>
  match x, y with
  | .ok u, .ok v => if h : u = v then isTrue (by rw [h]) else isFalse (by simp [h])
  | .error u, .error v => if h : u = v then isTrue (by rw [h]) else isFalse (by simp [h])
  | .ok _, .error _ => isFalse (by simp)
  | .error _, .ok _ => isFalse (by simp)

/- ### Concrete fixtures for witnesses and counterexamples -/

/-- Concrete fingerprint and digest collaborators used in closed statements. -/
def collabFix : Collab :=
  ⟨fun p o => "fp(" ++ p ++ ";" ++ o ++ ")", fun l => String.intercalate "|" l⟩

/-- Concrete instance state with SOURCE hash type. -/
def ctxFix : AssetStagingCtx := ⟨"/src/app", "/out", .source, none, "opts", "CK", "MyAsset"⟩

/-- Concrete instance state with CUSTOM hash type and a caller-supplied seed. -/
def ctxCustom : AssetStagingCtx := ⟨"/src/app", "/out", .custom, some "mySeed", "opts", "CK2", "MyAsset"⟩

/- ### Claim C2: idempotent placement -/

/-- Removing a path removes its binding. -/
theorem Fs.lookupP_removeAll_self (fs : Fs) (p : String) :
    (fs.removeAll p).lookupP p = none := by
  induction fs with
  | nil => rfl
  | cons q t ih =>
    simp only [Fs.removeAll, List.filter_cons] at *
    by_cases h1 : q.1 == p
    · simpa [h1] using ih
    · have h1p : q.1 ≠ p := by simpa using h1
      by_cases h2 : isUnder p q.1 <;> simp [h1, h1p, h2, Fs.lookupP, ih]

/-- C2 (amended): staging into an already-existing target returns without
error and performs no copy, rename or directory copy; for copy style the file
system is untouched; for move style the source is removed when it is a
different path from the target, and left in place when source and target are
the same path. -/
theorem AssetStaging.stageAsset_already_staged (ctx : AssetStagingCtx) (fs : Fs)
    (source target : String) (style : StageStyle)
    (h : fs.existsP target = true) :
    (∃ fs2 ops, AssetStaging.stageAsset ctx fs source target style = (fs2, .ok ops)
      ∧ ∀ a b, FsOp.copyFile a b ∉ ops ∧ FsOp.copyDir a b ∉ ops ∧ FsOp.rename a b ∉ ops)
    ∧ (style = .copy → AssetStaging.stageAsset ctx fs source target style = (fs, .ok []))
    ∧ (style = .move → source ≠ target →
        AssetStaging.stageAsset ctx fs source target style
          = (fs.removeAll source, .ok [.remove source])
        ∧ (AssetStaging.stageAsset ctx fs source target style).1.existsP source = false)
    ∧ (style = .move → source = target →
        AssetStaging.stageAsset ctx fs source target style = (fs, .ok [])) := by
  refine ⟨?_, ?_, ?_, ?_⟩
  · cases style with
    | move =>
      by_cases hst : source == target
      · exact ⟨fs, [], by simp [AssetStaging.stageAsset, h, hst], by simp⟩
      · exact ⟨fs.removeAll source, [.remove source],
          by simp [AssetStaging.stageAsset, h, hst], by simp⟩
    | copy => exact ⟨fs, [], by simp [AssetStaging.stageAsset, h], by simp⟩
  · intro hs; subst hs; simp [AssetStaging.stageAsset, h]
  · intro hs hne; subst hs
    have hne2 : (source == target) = false := by simp [hne]
    have h' : (fs.lookupP target).isSome = true := h
    constructor
    · simp [AssetStaging.stageAsset, h, hne2]
    · simp [AssetStaging.stageAsset, Fs.existsP, h', hne2, Fs.lookupP_removeAll_self]
  · intro hs he; subst hs; subst he; simp [AssetStaging.stageAsset, h]

/-- Witness for C2 (amended) at concrete inputs: an existing target, both
styles, and distinct source and target for the move case. -/
theorem AssetStaging.stageAsset_already_staged_witness :
    AssetStaging.stageAsset ctxFix [("/out/asset.h1", .dir), ("/tmp/b", .dir)]
        "/tmp/b" "/out/asset.h1" .copy
      = ([("/out/asset.h1", .dir), ("/tmp/b", .dir)], .ok [])
    ∧ AssetStaging.stageAsset ctxFix [("/out/asset.h1", .dir), ("/tmp/b", .dir)]
        "/tmp/b" "/out/asset.h1" .move
      = (Fs.removeAll [("/out/asset.h1", .dir), ("/tmp/b", .dir)] "/tmp/b", .ok [.remove "/tmp/b"]) := by
  have h1 := AssetStaging.stageAsset_already_staged ctxFix
    [("/out/asset.h1", .dir), ("/tmp/b", .dir)] "/tmp/b" "/out/asset.h1" .copy (by decide)
  have h2 := AssetStaging.stageAsset_already_staged ctxFix
    [("/out/asset.h1", .dir), ("/tmp/b", .dir)] "/tmp/b" "/out/asset.h1" .move (by decide)
  exact ⟨h1.2.1 rfl, (h2.2.2.1 rfl (by decide)).1⟩

/-- C2 counterexample: for move style with an already-existing target and
source equal to target (exactly the situation the bundle path produces when
the hash is known up front), the source is NOT removed, contradicting the
claim that the move style removes the source whenever the target exists. -/
theorem AssetStaging.stageAsset_move_same_path_counterexample :
    AssetStaging.stageAsset ctxFix [("/out/asset.h1", .dir)] "/out/asset.h1" "/out/asset.h1" .move
      = ([("/out/asset.h1", .dir)], .ok [])
    ∧ (AssetStaging.stageAsset ctxFix [("/out/asset.h1", .dir)] "/out/asset.h1" "/out/asset.h1"
        .move).1.existsP "/out/asset.h1" = true := by decide

/- ### Claim C6: bundle path with the skip flag -/

/-- C6: for every bundle-path request with the skip flag set, the result is
the SOURCE-strategy fingerprint of the unmodified source (no bundling config
folded in, even for a CUSTOM hash type with a seed the hash is not consulted
here: the call hard-codes SOURCE with no bundling argument), the staged path
is the source path itself, the file system is untouched (no bundle directory
created), and the bundler is never executed (the result does not depend on
the executor). -/
theorem AssetStaging.stageByBundling_skip (c : Collab) (runB runB2 : Fs → String → BundleRun)
    (ctx : AssetStagingCtx) (bundling : BundlingOptions) (fs : Fs) :
    AssetStaging.stageByBundling c runB ctx bundling true fs
      = (fs, .ok ([], { stagedPath := ctx.sourcePath, assetHash := c.fp ctx.sourcePath ctx.fingerprintOptions }))
    ∧ AssetStaging.stageByBundling c runB ctx bundling true fs
      = AssetStaging.stageByBundling c runB2 ctx bundling true fs := by
  have h : AssetStaging.calculateHash c ctx .source
      = .ok (c.fp ctx.sourcePath ctx.fingerprintOptions) := by
    simp [AssetStaging.calculateHash]
  constructor <;> simp [AssetStaging.stageByBundling, h]

/- ### Claim C5: copy path with the skip flag -/

/-- C5 (amended): for every copy-path request with the skip flag set and an
existing source, the staged path is the source path, and the asset hash is
whatever the RESOLVED strategy computes on the source: the SOURCE fingerprint
when the resolved strategy is SOURCE, but the digest of the caller-supplied
seed when it is CUSTOM — the skip flag does not override the strategy to
SOURCE on the copy path. -/
theorem AssetStaging.stageByCopying_skip (c : Collab) (ctx : AssetStagingCtx) (fs : Fs)
    (hsrc : fs.existsP ctx.sourcePath = true) :
    (∀ h, AssetStaging.calculateHash c ctx ctx.hashType = .ok h →
      AssetStaging.stageByCopying c ctx true fs
        = (fs, .ok ([], { stagedPath := ctx.sourcePath, assetHash := h })))
    ∧ (ctx.hashType = .source →
      AssetStaging.stageByCopying c ctx true fs
        = (fs, .ok ([], { stagedPath := ctx.sourcePath, assetHash := c.fp ctx.sourcePath ctx.fingerprintOptions })))
    ∧ (ctx.hashType = .custom → ∀ s, ctx.customSourceFingerprint = some s →
      AssetStaging.stageByCopying c ctx true fs
        = (fs, .ok ([], { stagedPath := ctx.sourcePath, assetHash := c.sha [s] }))) := by
  have hstage : AssetStaging.stageAsset ctx fs ctx.sourcePath ctx.sourcePath .copy = (fs, .ok []) := by
    simp [AssetStaging.stageAsset, hsrc]
  refine ⟨?_, ?_, ?_⟩
  · intro h hh; simp [AssetStaging.stageByCopying, hh, hstage]
  · intro ht
    have hh : AssetStaging.calculateHash c ctx ctx.hashType
        = .ok (c.fp ctx.sourcePath ctx.fingerprintOptions) := by
      simp [AssetStaging.calculateHash, ht]
    simp [AssetStaging.stageByCopying, hh, hstage]
  · intro ht s hs
    have hh : AssetStaging.calculateHash c ctx ctx.hashType = .ok (c.sha [s]) := by
      simp [AssetStaging.calculateHash, ht, hs]
    simp [AssetStaging.stageByCopying, hh, hstage]

/-- Witness for C5 (amended): concrete skip-copy staging with SOURCE strategy
and with CUSTOM strategy. -/
theorem AssetStaging.stageByCopying_skip_witness :
    AssetStaging.stageByCopying collabFix ctxFix true [("/src/app", .dir)]
      = ([("/src/app", .dir)], .ok ([], { stagedPath := "/src/app", assetHash := "fp(/src/app;opts)" }))
    ∧ AssetStaging.stageByCopying collabFix ctxCustom true [("/src/app", .dir)]
      = ([("/src/app", .dir)], .ok ([], { stagedPath := "/src/app", assetHash := "mySeed" })) := by
  have h1 := (AssetStaging.stageByCopying_skip collabFix ctxFix [("/src/app", .dir)]
    (by decide)).2.1 rfl
  have h2 := (AssetStaging.stageByCopying_skip collabFix ctxCustom [("/src/app", .dir)]
    (by decide)).2.2 rfl "mySeed" rfl
  exact ⟨h1, h2⟩

/-- C5 counterexample: the claim as stated says the skip-copy result hash
equals the SOURCE fingerprint regardless of the strategy hint; with an
explicit CUSTOM strategy and seed, the result hash is the digest of the seed,
which differs from the SOURCE fingerprint of the source. -/
theorem AssetStaging.stageByCopying_skip_counterexample :
    AssetStaging.stageByCopying collabFix ctxCustom true [("/src/app", .dir)]
      = ([("/src/app", .dir)], .ok ([], { stagedPath := "/src/app", assetHash := "mySeed" }))
    ∧ "mySeed" ≠ collabFix.fp ctxCustom.sourcePath ctxCustom.fingerprintOptions := by decide

/- ### Claim C10: pre-computable hash makes the bundle directory the staged path -/

/-- C10: when the hash is computable before bundling (resolved strategy SOURCE
or CUSTOM), the bundle directory IS the final staged path `asset.<hash>`, and
the final move-style placement, finding its target already existing and equal
to its source, leaves the file system exactly as the bundler left it: the
just-bundled output is never discarded. -/
theorem AssetStaging.stageByBundling_prehash_keeps_bundle (c : Collab)
    (runB : Fs → String → BundleRun) (ctx : AssetStagingCtx) (bundling : BundlingOptions)
    (fs fs1 : Fs) (h : String)
    (hht : ctx.hashType = .source ∨ ctx.hashType = .custom)
    (hh : AssetStaging.calculateHash c ctx ctx.hashType (some bundling) = .ok h)
    (hne : h ≠ "")
    (hbundle : AssetStaging.bundle runB ctx bundling fs
        (AssetStaging.determineBundleDir ctx ctx.outdir (some h)) = (fs1, .ok ()))
    (hex : fs1.existsP (AssetStaging.determineBundleDir ctx ctx.outdir (some h)) = true) :
    AssetStaging.stageByBundling c runB ctx bundling false fs
      = (fs1, .ok ([], { stagedPath := AssetStaging.determineBundleDir ctx ctx.outdir (some h), assetHash := h })) := by
  have hdir : AssetStaging.determineBundleDir ctx ctx.outdir (some h)
      = pathResolve ctx.outdir (renderAssetFilename h) := by
    simp [AssetStaging.determineBundleDir, truthyStr, hne]
  have hpre : (if ctx.hashType == .source || ctx.hashType == .custom then
      (AssetStaging.calculateHash c ctx ctx.hashType (some bundling)).map some
    else .ok none) = .ok (some h) := by
    rcases hht with ht | ht <;> rw [ht] at hh <;> simp [ht, hh, Except.map]
  have hstage : AssetStaging.stageAsset ctx fs1
      (AssetStaging.determineBundleDir ctx ctx.outdir (some h))
      (pathResolve ctx.outdir (renderAssetFilename h)) .move = (fs1, .ok []) := by
    rw [← hdir]
    have hex2 : (fs1.lookupP (AssetStaging.determineBundleDir ctx ctx.outdir (some h))).isSome = true := hex
    simp [AssetStaging.stageAsset, Fs.existsP, hex2]
  simp only [AssetStaging.stageByBundling, Bool.false_eq_true, if_false, hpre, hdir] at *
  simp [hbundle, hstage, hdir]

/-- Witness for C10: a concrete CUSTOM-strategy bundling run whose executor
writes one output file; the staged path is the bundle directory and the
bundled output survives placement. -/
theorem AssetStaging.stageByBundling_prehash_keeps_bundle_witness :
    AssetStaging.stageByBundling collabFix
        (fun f d => ⟨(d ++ "/out.bin", .file "x") :: f, none, true⟩)
        ctxCustom ⟨"BJSON", none⟩ false []
      = ([("/out/asset.mySeed|BJSON/out.bin", .file "x"), ("/out/asset.mySeed|BJSON", .dir)],
          .ok ([], { stagedPath := "/out/asset.mySeed|BJSON", assetHash := "mySeed|BJSON" })) := by
  have h := AssetStaging.stageByBundling_prehash_keeps_bundle collabFix
    (fun f d => ⟨(d ++ "/out.bin", .file "x") :: f, none, true⟩)
    ctxCustom ⟨"BJSON", none⟩ []
    [("/out/asset.mySeed|BJSON/out.bin", .file "x"), ("/out/asset.mySeed|BJSON", .dir)]
    "mySeed|BJSON" (Or.inr rfl) rfl (by decide) (by decide) (by decide)
  exact h


/- ### File-system lemmas for the bundle error protocol -/

/-- If a path does not exist, no entry is keyed by it. -/
theorem Fs.key_ne_of_existsP_false (fs : Fs) (p : String) (h : fs.existsP p = false) :
    ∀ q ∈ fs, q.1 ≠ p := by
  induction fs with
  | nil => intro e he; cases he
  | cons r t ih =>
    intro e he
    by_cases hr : r.1 = p
    · exfalso; simp [Fs.existsP, Fs.lookupP, hr] at h
    · rcases List.mem_cons.1 he with he | he
      · subst he; exact hr
      · exact ih (by simpa [Fs.existsP, Fs.lookupP, hr] using h) e he

/-- After a recursive remove, no entry is keyed by the removed path. -/
theorem Fs.key_ne_of_removeAll (fs : Fs) (p : String) :
    ∀ q ∈ fs.removeAll p, q.1 ≠ p := by
  intro q hq he
  have h := (List.mem_filter.1 hq).2
  simp [he] at h

/-- A recursive remove does not affect lookups at a path that is neither the
removed path nor below it. -/
theorem Fs.lookupP_removeAll_other (fs : Fs) (p q : String)
    (h1 : q ≠ p) (h2 : isUnder p q = false) :
    (fs.removeAll p).lookupP q = fs.lookupP q := by
  induction fs with
  | nil => rfl
  | cons r t ih =>
    simp only [Fs.removeAll] at ih
    obtain ⟨k, v⟩ := r
    by_cases hk : k = p
    · subst hk
      have hkq : k ≠ q := fun h => h1 h.symm
      simp [Fs.removeAll, Fs.lookupP, hkq, ih]
    · by_cases hu : isUnder p k
      · have hkq : k ≠ q := by
          intro he; rw [he, h2] at hu; cases hu
        simp [Fs.removeAll, Fs.lookupP, hk, hu, hkq, ih]
      · simp [Fs.removeAll, Fs.lookupP, hk, hu, ih]

/-- An entry strictly below directory `d` has a strictly longer path. -/
theorem length_lt_of_isUnder (d p : String) (h : isUnder d p = true) :
    d.length + 1 ≤ p.length := by
  unfold isUnder at h
  have hp : (d ++ "/").data <+: p.data := List.isPrefixOf_iff_prefix.1 h
  have h2 := hp.length_le
  have h3 : ("/" : String).length = 1 := rfl
  simpa [String.length_append, h3] using h2

/-- A path cannot be strictly below a path at least as long. -/
theorem isUnder_eq_false_of_length_le (d p : String)
    (h : p.length ≤ d.length) : isUnder d p = false := by
  cases hu : isUnder d p
  · rfl
  · exact absurd (length_lt_of_isUnder d p hu) (by omega)

/-- Renaming moves the binding of the source to the target: looking up the
target after the rename finds whatever was bound at the source, provided the
target is a strictly longer path than the source (the `-error` sibling is)
and nothing was keyed by the target beforehand. -/
theorem Fs.lookupP_renameP_tgt (fs : Fs) (src tgt : String)
    (hlen : src.length < tgt.length)
    (hclean : ∀ q ∈ fs, q.1 ≠ tgt) :
    (fs.renameP src tgt).lookupP tgt = fs.lookupP src := by
  induction fs with
  | nil => rfl
  | cons q t ih =>
    obtain ⟨k, v⟩ := q
    have hcq : k ≠ tgt := hclean (k, v) (by simp)
    have hct : ∀ r ∈ t, r.1 ≠ tgt := fun r hr => hclean r (by simp [hr])
    by_cases h1 : k = src
    · subst h1
      have hmap : Fs.renameP ((k, v) :: t) k tgt = (tgt, v) :: Fs.renameP t k tgt := by
        simp [Fs.renameP]
      rw [hmap]
      simp [Fs.lookupP, ih hct]
    · by_cases h2 : isUnder src k
      · have hlen2 := length_lt_of_isUnder src k h2
        have hne : String.mk (tgt.data ++ k.data.drop src.length) ≠ tgt := by
          intro he
          have hd : tgt.data ++ k.data.drop src.length = tgt.data := congrArg String.data he
          have hl := congrArg List.length hd
          simp [List.length_append, List.length_drop] at hl
          omega
        have hmap : Fs.renameP ((k, v) :: t) src tgt
            = (String.mk (tgt.data ++ k.data.drop src.length), v) :: Fs.renameP t src tgt := by
          simp [Fs.renameP, h1, h2]
        rw [hmap]
        simp [Fs.lookupP, hne, h1, ih hct]
      · have hmap : Fs.renameP ((k, v) :: t) src tgt = (k, v) :: Fs.renameP t src tgt := by
          simp [Fs.renameP, h1, h2]
        rw [hmap]
        simp [Fs.lookupP, hcq, h1, ih hct]

/-- After renaming to a strictly longer target path, nothing is bound at the
source path any more. -/
theorem Fs.lookupP_renameP_src (fs : Fs) (src tgt : String)
    (hlen : src.length < tgt.length) :
    (fs.renameP src tgt).lookupP src = none := by
  induction fs with
  | nil => rfl
  | cons q t ih =>
    obtain ⟨k, v⟩ := q
    by_cases h1 : k = src
    · subst h1
      have hkey : tgt ≠ k := by
        intro he; rw [← he] at hlen; omega
      have hmap : Fs.renameP ((k, v) :: t) k tgt = (tgt, v) :: Fs.renameP t k tgt := by
        simp [Fs.renameP]
      rw [hmap]
      simp [Fs.lookupP, hkey, ih]
    · by_cases h2 : isUnder src k
      · have hlen2 := length_lt_of_isUnder src k h2
        have hne : String.mk (tgt.data ++ k.data.drop src.length) ≠ src := by
          intro he
          have hd := congrArg List.length (congrArg String.data he)
          simp [List.length_append, List.length_drop] at hd
          omega
        have hmap : Fs.renameP ((k, v) :: t) src tgt
            = (String.mk (tgt.data ++ k.data.drop src.length), v) :: Fs.renameP t src tgt := by
          simp [Fs.renameP, h1, h2]
        rw [hmap]
        simp [Fs.lookupP, hne, ih]
      · have hmap : Fs.renameP ((k, v) :: t) src tgt = (k, v) :: Fs.renameP t src tgt := by
          simp [Fs.renameP, h1, h2]
        rw [hmap]
        simp [Fs.lookupP, h1, ih]

/- ### Claim C8: bundler failure protocol -/

/-- C8: when the bundler execution throws, `bundle` removes any pre-existing
stale `-error` sibling, renames the partially populated bundle directory to
the `-error` sibling (so what was bound at the bundle directory is afterwards
bound at the `-error` path and the bundle directory itself is gone), and
surfaces a fatal error naming both the logical asset and the `-error` path. -/
theorem AssetStaging.bundle_failure (runB : Fs → String → BundleRun)
    (ctx : AssetStagingCtx) (options : BundlingOptions) (fs : Fs) (bundleDir : String)
    (fsr : Fs) (err : String) (l : Bool)
    (h0 : fs.existsP bundleDir = false)
    (h1 : runB (fs.setEntry bundleDir .dir) bundleDir = ⟨fsr, some err, l⟩) :
    AssetStaging.bundle runB ctx options fs bundleDir
      = (Fs.renameP
          (if fsr.existsP (bundleDir ++ "-error") then fsr.removeAll (bundleDir ++ "-error") else fsr)
          bundleDir (bundleDir ++ "-error"),
         .error ("Failed to bundle asset " ++ ctx.nodePath ++ ", bundle output is located at "
            ++ (bundleDir ++ "-error") ++ ": " ++ err))
    ∧ (AssetStaging.bundle runB ctx options fs bundleDir).1.lookupP (bundleDir ++ "-error")
        = fsr.lookupP bundleDir
    ∧ (AssetStaging.bundle runB ctx options fs bundleDir).1.lookupP bundleDir = none := by
  have h6 : ("-error" : String).length = 6 := rfl
  have hlen : bundleDir.length < (bundleDir ++ "-error").length := by
    rw [String.length_append, h6]; omega
  have hne : bundleDir ≠ bundleDir ++ "-error" := by
    intro he
    have := congrArg String.length he
    rw [String.length_append, h6] at this; omega
  have hu : isUnder (bundleDir ++ "-error") bundleDir = false :=
    isUnder_eq_false_of_length_le _ _ (by rw [String.length_append, h6]; omega)
  have heq : AssetStaging.bundle runB ctx options fs bundleDir
      = (Fs.renameP
          (if fsr.existsP (bundleDir ++ "-error") then fsr.removeAll (bundleDir ++ "-error") else fsr)
          bundleDir (bundleDir ++ "-error"),
         .error ("Failed to bundle asset " ++ ctx.nodePath ++ ", bundle output is located at "
            ++ (bundleDir ++ "-error") ++ ": " ++ err)) := by
    simp [AssetStaging.bundle, h0, h1]
  refine ⟨heq, ?_, ?_⟩
  · rw [heq]
    cases hex : fsr.existsP (bundleDir ++ "-error") with
    | true =>
      simp only [hex, if_true]
      rw [Fs.lookupP_renameP_tgt _ _ _ hlen (Fs.key_ne_of_removeAll fsr _)]
      exact Fs.lookupP_removeAll_other fsr _ _ hne hu
    | false =>
      simp only [hex, Bool.false_eq_true, if_false]
      exact Fs.lookupP_renameP_tgt _ _ _ hlen (Fs.key_ne_of_existsP_false fsr _ hex)
  · rw [heq]
    exact Fs.lookupP_renameP_src _ _ _ hlen

/-- Witness for C8: a failing bundler run over a file system holding a stale
`-error` directory; the partial output ends up at the `-error` path, the
bundle directory is gone, and the error names the asset and the path. -/
theorem AssetStaging.bundle_failure_witness :
    (AssetStaging.bundle (fun f d => ⟨(d ++ "/partial.o", .file "p") :: f, some "boom", false⟩)
        ctxFix ⟨"BJSON", none⟩ [("/out/b-error", .dir)] "/out/b").1.lookupP "/out/b-error"
      = some .dir
    ∧ (AssetStaging.bundle (fun f d => ⟨(d ++ "/partial.o", .file "p") :: f, some "boom", false⟩)
        ctxFix ⟨"BJSON", none⟩ [("/out/b-error", .dir)] "/out/b").1.lookupP "/out/b" = none
    ∧ (AssetStaging.bundle (fun f d => ⟨(d ++ "/partial.o", .file "p") :: f, some "boom", false⟩)
        ctxFix ⟨"BJSON", none⟩ [("/out/b-error", .dir)] "/out/b").2
      = .error "Failed to bundle asset MyAsset, bundle output is located at /out/b-error: boom" := by
  have h := AssetStaging.bundle_failure
    (fun f d => ⟨(d ++ "/partial.o", .file "p") :: f, some "boom", false⟩)
    ctxFix ⟨"BJSON", none⟩ [("/out/b-error", .dir)] "/out/b"
    [("/out/b/partial.o", .file "p"), ("/out/b", .dir), ("/out/b-error", .dir)]
    "boom" false rfl rfl
  have e : ("/out/b" ++ "-error" : String) = "/out/b-error" := rfl
  rw [e] at h
  refine ⟨?_, h.2.2, ?_⟩
  · rw [h.2.1]; decide
  · rw [h.1]; decide

/- ### Claim C9: empty bundling output -/

/-- C9 (amended): a transformation that succeeds but writes no files into the
bundle directory is reported as a fatal error (naming the location output was
expected at) rather than producing a silent empty staged asset; in that case
the file system is left exactly as the bundler left it — the bundle directory
remains in place and no `-error` sibling is created; only an execution
failure leaves the `-error` artifact. -/
theorem AssetStaging.bundle_empty_output (runB : Fs → String → BundleRun)
    (ctx : AssetStagingCtx) (options : BundlingOptions) (fs : Fs) (bundleDir : String)
    (fsr : Fs) (l : Bool)
    (h0 : fs.existsP bundleDir = false)
    (h1 : runB (fs.setEntry bundleDir .dir) bundleDir = ⟨fsr, none, l⟩)
    (h2 : fsr.isEmptyDir bundleDir = true) :
    AssetStaging.bundle runB ctx options fs bundleDir
      = (fsr, .error ("Bundling did not produce any output. Check that content is written to "
          ++ (if l then bundleDir else AssetStaging.BUNDLING_OUTPUT_DIR) ++ "."))
    ∧ (fsr.existsP (bundleDir ++ "-error") = false →
        (AssetStaging.bundle runB ctx options fs bundleDir).1.existsP (bundleDir ++ "-error") = false) := by
  have heq : AssetStaging.bundle runB ctx options fs bundleDir
      = (fsr, .error ("Bundling did not produce any output. Check that content is written to "
          ++ (if l then bundleDir else AssetStaging.BUNDLING_OUTPUT_DIR) ++ ".")) := by
    simp [AssetStaging.bundle, h0, h1, h2]
  exact ⟨heq, fun hx => by rw [heq]; exact hx⟩

/-- Witness for C9 (amended): a concrete succeeding bundler that writes
nothing; the staged file system keeps the bundle directory and gains no
`-error` sibling. -/
theorem AssetStaging.bundle_empty_output_witness :
    AssetStaging.bundle (fun f _ => ⟨f, none, true⟩) ctxFix ⟨"BJSON", none⟩ [] "/out/b"
      = ([("/out/b", .dir)],
          .error "Bundling did not produce any output. Check that content is written to /out/b.") := by
  have h := AssetStaging.bundle_empty_output (fun f _ => ⟨f, none, true⟩)
    ctxFix ⟨"BJSON", none⟩ [] "/out/b" [("/out/b", .dir)] true rfl rfl rfl
  rw [h.1]; decide

/-- C9 counterexample: the claim as stated says every transformation error —
including empty output — leaves an inspectable `-error` directory; this
concrete empty-output run raises the transformation error yet leaves no
`-error` directory (the bundle directory itself is what remains). -/
theorem AssetStaging.bundle_empty_output_no_error_dir :
    (AssetStaging.bundle (fun f _ => ⟨f, none, true⟩) ctxFix ⟨"BJSON", none⟩ [] "/out/b").2
      = .error "Bundling did not produce any output. Check that content is written to /out/b."
    ∧ (AssetStaging.bundle (fun f _ => ⟨f, none, true⟩) ctxFix ⟨"BJSON", none⟩ []
        "/out/b").1.existsP "/out/b-error" = false
    ∧ (AssetStaging.bundle (fun f _ => ⟨f, none, true⟩) ctxFix ⟨"BJSON", none⟩ []
        "/out/b").1.existsP "/out/b" = true := by
  decide

/- ### Claim C7: canonicalization lemmas -/

/-- A field-list permutation permutes the keys. -/
theorem PermKV.keys_perm {a b : JsonKVs} (h : PermKV a b) : (keysOf a).Perm (keysOf b) := by
  induction h with
  | nil => exact List.Perm.refl _
  | cons k v hp ih => simpa [keysOf] using List.Perm.cons k ih
  | swap k v k2 v2 t => simpa [keysOf] using List.Perm.swap k2 k (keysOf t)
  | trans h1 h2 ih1 ih2 => exact ih1.trans ih2

/-- In-place related field lists have the same keys. -/
theorem pointwiseKV_keysOf : ∀ (l m : JsonKVs), pointwiseKV l m → keysOf l = keysOf m
  | .nil, .nil, _ => rfl
  | .nil, .cons _ _ _, h => (h : False).elim
  | .cons _ _ _, .nil, h => (h : False).elim
  | .cons k v t, .cons k2 v2 t2, h => by
    have hh : k = k2 ∧ jequiv v v2 ∧ pointwiseKV t t2 := h
    simp [keysOf, hh.1, pointwiseKV_keysOf t t2 hh.2.2]

/-- Insertions for distinct keys commute. -/
theorem insertKV_comm : ∀ (s : JsonKVs) (k1 k2 : String) (v1 v2 : JsonValue), k1 ≠ k2 →
    insertKV k1 v1 (insertKV k2 v2 s) = insertKV k2 v2 (insertKV k1 v1 s)
  | .nil, k1, k2, v1, v2, hne => by
    rcases le_or_lt k1 k2 with h12 | h21
    · have hn21 : ¬k2 ≤ k1 := fun hh => hne (le_antisymm h12 hh)
      simp [insertKV, h12, hn21]
    · have hn12 : ¬k1 ≤ k2 := not_le_of_lt h21
      simp [insertKV, le_of_lt h21, hn12]
  | .cons k3 v3 t, k1, k2, v1, v2, hne => by
    by_cases h13 : k1 ≤ k3 <;> by_cases h23 : k2 ≤ k3
    · rcases le_or_lt k1 k2 with h12 | h21
      · have hn21 : ¬k2 ≤ k1 := fun hh => hne (le_antisymm h12 hh)
        simp [insertKV, h13, h23, h12, hn21]
      · have hn12 : ¬k1 ≤ k2 := not_le_of_lt h21
        simp [insertKV, h13, h23, le_of_lt h21, hn12]
    · have h12 : k1 ≤ k2 := le_trans h13 (le_of_not_le h23)
      have hn21 : ¬k2 ≤ k1 := fun hh => h23 (le_trans hh h13)
      simp [insertKV, h13, h23, h12, hn21]
    · have h21 : k2 ≤ k1 := le_trans h23 (le_of_not_le h13)
      have hn12 : ¬k1 ≤ k2 := fun hh => h13 (le_trans hh h23)
      simp [insertKV, h13, h23, h21, hn12]
    · simp [insertKV, h13, h23, insertKV_comm t k1 k2 v1 v2 hne]

/-- Key-sorting one object level is invariant under permutation of its fields,
provided the keys are distinct (as they are in a JavaScript object). -/
theorem sortKVs_perm_eq : ∀ {a b : JsonKVs}, PermKV a b → (keysOf a).Nodup →
    sortKVs a = sortKVs b := by
  intro a b h
  induction h with
  | nil => intro _; rfl
  | cons k v hp ih =>
    intro hnd
    simp only [keysOf, List.nodup_cons] at hnd
    simp [sortKVs, ih hnd.2]
  | swap k v k2 v2 t =>
    intro hnd
    have hne : k2 ≠ k := by
      simp only [keysOf, List.nodup_cons, List.mem_cons] at hnd
      exact fun he => hnd.1 (Or.inl he.symm)
    simp [sortKVs, insertKV_comm (sortKVs t) k k2 v v2 (fun he => hne he.symm)]
  | trans h1 h2 ih1 ih2 =>
    intro hnd
    exact (ih1 hnd).trans (ih2 (h1.keys_perm.nodup hnd))

/-- Recursive canonicalization of the values preserves field-list permutation. -/
theorem PermKV.map_sortObject {a b : JsonKVs} (h : PermKV a b) :
    PermKV (sortObjectKVs a) (sortObjectKVs b) := by
  induction h with
  | nil => exact .nil
  | cons k v hp ih =>
    simp only [sortObjectKVs]
    exact PermKV.cons k (sortObject v) ih
  | swap k v k2 v2 t =>
    simp only [sortObjectKVs]
    exact PermKV.swap k (sortObject v) k2 (sortObject v2) (sortObjectKVs t)
  | trans h1 h2 ih1 ih2 => exact ih1.trans ih2

/-- Recursive canonicalization of the values keeps the keys. -/
theorem keysOf_sortObjectKVs : ∀ (l : JsonKVs), keysOf (sortObjectKVs l) = keysOf l
  | .nil => rfl
  | .cons k v t => by simp [sortObjectKVs, keysOf, keysOf_sortObjectKVs t]

/- Canonicalization maps key-order-equivalent well-formed values to the same
result: reordering object keys at any depth not below an array does not
change the output of `sortObject`. -/
mutual
theorem sortObject_congr : ∀ (v w : JsonValue), wfValue v → jequiv v w → sortObject v = sortObject w
  | .str s, w, _, h => by
    have he : JsonValue.str s = w := h
    rw [← he]
  | .num n, w, _, h => by
    have he : JsonValue.num n = w := h
    rw [← he]
  | .bool b, w, _, h => by
    have he : JsonValue.bool b = w := h
    rw [← he]
  | .null, w, _, h => by
    have he : JsonValue.null = w := h
    rw [← he]
  | .arr xs, w, _, h => by
    have he : JsonValue.arr xs = w := h
    rw [← he]
  | .obj l, .str s, _, h => JsonValue.noConfusion (h : JsonValue.obj l = JsonValue.str s)
  | .obj l, .num n, _, h => JsonValue.noConfusion (h : JsonValue.obj l = JsonValue.num n)
  | .obj l, .bool b, _, h => JsonValue.noConfusion (h : JsonValue.obj l = JsonValue.bool b)
  | .obj l, .null, _, h => JsonValue.noConfusion (h : JsonValue.obj l = JsonValue.null)
  | .obj l, .arr ys, _, h => JsonValue.noConfusion (h : JsonValue.obj l = JsonValue.arr ys)
  | .obj l, .obj l2, hwf, h => by
    obtain ⟨m, hpw, hperm⟩ : ∃ m, pointwiseKV l m ∧ PermKV m l2 := h
    have hwf2 : (keysOf l).Nodup ∧ wfKVs l := hwf
    have h1 : sortObjectKVs l = sortObjectKVs m := sortObjectKVs_congr l m hwf2.2 hpw
    have hndm : (keysOf (sortObjectKVs m)).Nodup := by
      rw [keysOf_sortObjectKVs, ← pointwiseKV_keysOf l m hpw]
      exact hwf2.1
    have h2 : sortKVs (sortObjectKVs m) = sortKVs (sortObjectKVs l2) :=
      sortKVs_perm_eq (PermKV.map_sortObject hperm) hndm
    show JsonValue.obj (sortKVs (sortObjectKVs l)) = JsonValue.obj (sortKVs (sortObjectKVs l2))
    rw [h1, h2]
theorem sortObjectKVs_congr : ∀ (l m : JsonKVs), wfKVs l → pointwiseKV l m →
    sortObjectKVs l = sortObjectKVs m
  | .nil, .nil, _, _ => rfl
  | .nil, .cons _ _ _, _, h => (h : False).elim
  | .cons _ _ _, .nil, _, h => (h : False).elim
  | .cons k v t, .cons k2 v2 t2, hwf, h => by
    have hh : k = k2 ∧ jequiv v v2 ∧ pointwiseKV t t2 := h
    have hw : wfValue v ∧ wfKVs t := hwf
    simp [sortObjectKVs, hh.1, sortObject_congr v v2 hw.1 hh.2.1,
      sortObjectKVs_congr t t2 hw.2 hh.2.2]
end

/-- C7 (amended): for every pair of cycle-free well-formed structures that are
structurally equal up to reordering of mapping keys at any depth NOT below a
sequence (entries below a sequence must be literally equal, because the code
passes arrays through unchanged), the canonicalizer produces the same
canonical value — hence identical serialized bytes — and the cache key
computer returns equal keys for any digest function; sequence element order
is preserved (arrays are returned unchanged). -/
theorem sortObject_canonicalizes (sha : List String → String) (v w : JsonValue)
    (hwf : wfValue v) (h : jequiv v w) :
    sortObject v = sortObject w
    ∧ stringify (sortObject v) = stringify (sortObject w)
    ∧ calculateCacheKey sha v = calculateCacheKey sha w
    ∧ (∀ xs, sortObject (.arr xs) = .arr xs) := by
  have he := sortObject_congr v w hwf h
  exact ⟨he, by rw [he], by simp [calculateCacheKey, he], fun xs => rfl⟩

/-- Witness for C7 (amended): two concrete two-field objects differing only
in field order canonicalize, serialize and hash identically. -/
theorem sortObject_canonicalizes_witness :
    stringify (sortObject (JsonValue.obj (.cons "b" (.num 2) (.cons "a" (.num 1) .nil))))
      = stringify (sortObject (JsonValue.obj (.cons "a" (.num 1) (.cons "b" (.num 2) .nil))))
    ∧ calculateCacheKey collabFix.sha (JsonValue.obj (.cons "b" (.num 2) (.cons "a" (.num 1) .nil)))
      = calculateCacheKey collabFix.sha (JsonValue.obj (.cons "a" (.num 1) (.cons "b" (.num 2) .nil))) := by
  have hwf : wfValue (JsonValue.obj (.cons "b" (.num 2) (.cons "a" (.num 1) .nil))) := by
    refine ⟨by decide, ?_⟩
    exact ⟨trivial, trivial, trivial⟩
  have hj : jequiv (JsonValue.obj (.cons "b" (.num 2) (.cons "a" (.num 1) .nil)))
      (JsonValue.obj (.cons "a" (.num 1) (.cons "b" (.num 2) .nil))) := by
    exact ⟨.cons "b" (.num 2) (.cons "a" (.num 1) .nil),
      ⟨rfl, rfl, rfl, rfl, trivial⟩,
      PermKV.swap "b" (.num 2) "a" (.num 1) .nil⟩
  have h := sortObject_canonicalizes collabFix.sha _ _ hwf hj
  exact ⟨h.2.1, h.2.2.1⟩

/-- A one-field object whose value is a one-element array holding a two-field
object, fields in x-y order. -/
def jsonNestedA : JsonValue :=
  .obj (.cons "a" (.arr (.cons (.obj (.cons "x" (.num 1) (.cons "y" (.num 2) .nil))) .nil)) .nil)

/-- The same structure with the two fields below the array reordered. -/
def jsonNestedB : JsonValue :=
  .obj (.cons "a" (.arr (.cons (.obj (.cons "y" (.num 2) (.cons "x" (.num 1) .nil))) .nil)) .nil)

/-- C7 counterexample: the two structures are equal up to mapping-key order at
any depth (including inside the sequence), yet the canonicalizer serializes
them differently and the cache keys differ: `sortObject` does not recurse
into arrays, so key order below a sequence is significant, contradicting the
claim as stated. -/
theorem sortObject_nested_in_array_counterexample :
    jequivD jsonNestedA jsonNestedB
    ∧ stringify (sortObject jsonNestedA) ≠ stringify (sortObject jsonNestedB)
    ∧ calculateCacheKey collabFix.sha jsonNestedA ≠ calculateCacheKey collabFix.sha jsonNestedB := by
  refine ⟨?_, by decide, by decide⟩
  show ∃ m, pointwiseKVD _ m ∧ PermKV m _
  refine ⟨.cons "a" (.arr (.cons (.obj (.cons "y" (.num 2) (.cons "x" (.num 1) .nil))) .nil)) .nil,
    ⟨rfl, ?_, trivial⟩, PermKV.cons _ _ .nil⟩
  show jequivD (.arr _) (.arr _)
  refine ⟨?_, trivial⟩
  show ∃ m2, pointwiseKVD _ m2 ∧ PermKV m2 _
  exact ⟨.cons "x" (.num 1) (.cons "y" (.num 2) .nil),
    ⟨rfl, rfl, rfl, rfl, trivial⟩,
    PermKV.swap "x" (.num 1) "y" (.num 2) .nil⟩
